import Mathlib

/-!
Shallow embedding of the tool-calling conversation orchestrator of the
`jira-helper` repository (package `internal/handler`, plus the lazy-client
variant of `getMcpClient`/`ensureDefaultMcpClient`).

Conventions of the embedding:
* External collaborators (the Slack transport, the Azure OpenAI model backend,
  the MCP tool backend, the argument-to-JSON rendering of `encoding/json`, and
  the presentation formatter `ToolMessageFormatter`, which the design document
  declares out of scope) are modelled as fields of an `Env` record.  The
  control flow of the orchestrator itself, message-window bookkeeping, permission gate,
  summarizer and progress reporting are translated statement by statement from
  the Go source.
* Side effects (posting/updating Slack messages, invoking a tool, creating or
  closing an MCP client, running the one-time lazy initialisation body) are
  recorded in an event trace carried through a `LoopState`.
* Go `len(s)` is byte length of a string; the embedding uses `String.length`
  (codepoint count).  All concrete inputs used in witnesses and
  counterexamples are ASCII, where the two coincide.
-/

namespace JiraHelper

/-- A requested tool call (`openai.ToolCall` in
`internal/service/openai/client.go`): id, tool name and the decoded argument
map.  JSON argument values are kept as their rendered strings, which is all the
orchestrator ever does with them. -/
structure ToolCall where
  id : String
  name : String
  args : List (String × String)
  deriving Repr, DecidableEq

/-- The messages the orchestrator builds
(`azopenai.ChatRequestMessageClassification` as used in
`internal/handler/handler.go`): system / user / assistant text messages, the
assistant message carrying a tool call appended by `addToolCallToMessages`,
and the tool-result message (`azopenai.ChatRequestToolMessage`). -/
inductive ChatMessage where
  | system (content : String)
  | user (content : String)
  | assistant (content : String)
  | assistantToolCall (id name argumentsJson : String)
  | toolResult (toolCallId content : String)
  deriving Repr, DecidableEq

/-- Record `openai.ChatResponse`: text content, requested tool calls, and the
completion flag (`IsComplete`). -/
structure ChatResponse where
  content : String
  toolCalls : List ToolCall
  isComplete : Bool
  deriving Repr, DecidableEq

/-- The content items of an `mcp.CallToolResult`: either text content or some
other content whose JSON rendering is kept as a string. -/
inductive ToolContent where
  | text (s : String)
  | other (json : String)
  deriving Repr, DecidableEq

/-- Which MCP client a turn works with: the process-wide default client or a
per-user ephemeral client. -/
inductive ClientKind where
  | default
  | ephemeral
  deriving Repr, DecidableEq

/-- The cleanup function returned by `getMcpClient`: either the no-op returned
for the default client, or the closure that closes the ephemeral client. -/
inductive Cleanup where
  | noop
  | closeClient
  deriving Repr, DecidableEq

/-- Observable effects of one turn, in program order. -/
inductive Event where
  /-- Effect: `sendMarkdownMessage` posted a new Slack message (text, returned ts). -/
  | posted (text ts : String)
  /-- Effect: `updateMessage` edited the Slack message `ts` in place with `text`. -/
  | updated (ts text : String)
  /-- one `aiClient.ChatWithTools` model round was issued -/
  | chatRound
  /-- one auxiliary `aiClient.Chat` call was issued (the summarizer) -/
  | chatCall
  /-- a tool invocation for `name` reached the MCP backend (`CallTool`) -/
  | callTool (name : String)
  /-- an MCP client process was created (`NewStdioMCPClient` succeeded) -/
  | clientCreated (k : ClientKind)
  /-- an MCP client was closed (the cleanup returned by `getMcpClient`) -/
  | clientClosed
  /-- the body of `mcpInitOnce.Do` ran (the one-time lazy default-client
  initialisation in `src/unnamed/part_005`) -/
  | onceBodyRun
  deriving Repr, DecidableEq

/-- The environment: the external collaborators consumed by the orchestrator,
each at the interface the design document specifies.  `chatWithTools` absorbs
the constant `openAITools` argument (it does not change within a turn). -/
structure Env where
  /-- the model backend `aiClient.ChatWithTools` -/
  chatWithTools : List ChatMessage → Except String ChatResponse
  /-- the model backend `aiClient.Chat` (used by `summarizeIfTooLong`) -/
  chat : List ChatMessage → Except String String
  /-- the MCP tool backend `mcpClient.CallTool` -/
  callTool : ToolCall → Except String (List ToolContent)
  /-- the presentation formatter `msgFormatter.FormatToolCallMessage`
  (declared out of scope by the design document) -/
  formatToolCall : String → List (String × String) → String
  /-- Embedding of `printJSON` (util.go), whose core is `encoding/json.Marshal` -/
  printJson : List (String × String) → String
  /-- Embedding of `prettyPrintJSON` (util.go), whose core is `json.MarshalIndent` -/
  prettyPrintJson : List (String × String) → String
  /-- the Slack timestamp returned by the n-th successful `PostMessage` -/
  postTs : Nat → String
  /-- outcome of `client.NewStdioMCPClient` for a per-user ephemeral client -/
  newEphemeralClient : Except String Unit
  /-- outcome of the `Initialize` handshake of the ephemeral client -/
  initEphemeral : Except String Unit
  /-- outcome of `client.NewStdioMCPClient` for the lazy default client -/
  newDefaultClient : Except String Unit
  /-- outcome of the `Initialize` handshake of the lazy default client -/
  initDefault : Except String Unit

/-- The mutable state threaded through one turn of the conversation loop:
the message window, the timestamp of the currently displayed progress message, the
accumulated progress lines (`slackMessageLines`), the number of Slack posts
made so far, and the event trace. -/
structure LoopState where
  messages : List ChatMessage
  timestamp : String
  lines : List String
  postCount : Nat
  trace : List Event
  deriving Repr, DecidableEq

/-- Embedding of `writableJiraTools` (handler.go:149-166): the static set of mutating tool
names the permission gate guards. -/
def writableJiraTools : List String :=
  [ "jira_create_issue"
  , "jira_batch_create_issues"
  , "jira_update_issue"
  , "jira_delete_issue"
  , "jira_add_comment"
  , "jira_add_worklog"
  , "jira_link_to_epic"
  , "jira_create_issue_link"
  , "jira_remove_issue_link"
  , "jira_transition_issue"
  , "jira_create_sprint"
  , "jira_update_sprint"
  , "confluence_add_label"
  , "confluence_create_page"
  , "confluence_update_page"
  , "confluence_delete_page" ]

/-- Embedding of `trimMessages` (handler.go:249-257): keep the system prompt at index 0 and
the last 20 messages once the window exceeds 21 entries. -/
def trimMessages (messages : List ChatMessage) : List ChatMessage :=
  let maxMessages := 21
  if messages.length > maxMessages then
    messages.take 1 ++ messages.drop (messages.length - 20)
  else
    messages

/-- Embedding of `shouldCreateNewMessage` (message.go:59-68): join the accumulated lines
plus the new line with blank lines and compare against the Slack limit of 40,000
character message ceiling. -/
def shouldCreateNewMessage (existingLines : List String) (newLine : String) : Bool :=
  let combinedLines := existingLines ++ [newLine]
  let message := String.intercalate "\n\n" combinedLines
  message.length > 40000

/-- Embedding of `formatCallToolResult` (util.go:48-54): quote every line of a
tool result for Slack display.  The Go `strings.Split(result, "\n")` has a
single-character separator, so it is the split at each newline character. -/
def formatCallToolResult (result : String) : String :=
  String.intercalate "\n" ((result.split (fun c => c == '\n')).map (fun line => ">_" ++ line ++ "_"))

/-- Embedding of `printToolResult` (util.go:56-66): the first content item decides — its
text if it is text content, its JSON rendering otherwise; empty result lists
give `""`.  (The Go loop returns inside its first iteration on both
branches.) -/
def printToolResult : List ToolContent → String
  | [] => ""
  | .text s :: _ => s
  | .other j :: _ => j

/-- Embedding of `createCollapsibleBlocks` (handler.go:462-471). -/
def createCollapsibleBlocks (title content : String) (isError : Bool) : String :=
  let emoji := if isError then "❌" else "✅️"
  emoji ++ " _" ++ title ++ "_\n" ++ content

/-- Embedding of `defaultErrorMessage` (util.go:69), already instantiated with the error
text (`fmt.Sprintf(defaultErrorMessage, err.Error())`). -/
def defaultErrorMessage (err : String) : String :=
  "❌ Something went wrong while processing your request. Please try again later or contact <@U0ZGB1ZLP> for help. ```Error: " ++ err ++ "```"

/-- The fixed system instruction of the summarizer prompt
(handler.go:482-494), kept abstract as a named constant; its exact text plays
no role in any property. -/
def summarySystemInstruction : String :=
  "You are a summarization assistant. Your job is to condense lengthy tool results into plain-text key information that is easy to read in Slack."

/-- Embedding of `summarizeIfTooLong` (handler.go:474-506): return short content unchanged;
otherwise issue one auxiliary `Chat` call and fall back to the original
content when the call fails or returns the empty string, propagating the
error.  Result: ((returned text, returned error), events). -/
def summarizeIfTooLong (env : Env) (content : String) :
    (String × Option String) × List Event :=
  let maxLen := 2000
  if content.length ≤ maxLen then
    ((content, none), [])
  else
    let summaryPrompt : List ChatMessage :=
      [ .system summarySystemInstruction, .user content ]
    match env.chat summaryPrompt with
    | .error e => ((content, some e), [.chatCall])
    | .ok summarized =>
        if summarized = "" then ((content, none), [.chatCall])
        else ((summarized, none), [.chatCall])

/-- Embedding of `updateMessage` (message.go:45-56): call the Slack `UpdateMessage` API,
log a failure, and return `nil` unconditionally.  The first component is the
returned error value; the second records whether a failure was logged. -/
def updateMessage (apiResult : Except String Unit) (channel timestamp message : String) :
    Option String × List String :=
  match apiResult with
  | .error e => (none, ["failed to update message: " ++ e ++ " (channel " ++ channel ++ ", ts " ++ timestamp ++ ", len " ++ toString message.length ++ ")"])
  | .ok _ => (none, [])

/-- State of the lazily created default MCP client in the variant handler of
`src/unnamed/part_005` (fields `defaultMcpClient`, `mcpInitOnce`,
`mcpInitErr`): not yet demanded, successfully created, or failed with the
cached error. -/
inductive McpState where
  | uninit
  | ready
  | failed (e : String)
  deriving Repr, DecidableEq

/-- Embedding of `ensureDefaultMcpClient` (src/unnamed/part_005:56-89): the
body of `mcpInitOnce.Do` runs only from the not-yet-demanded state; it creates
the client process and performs the handshake, caching either success or the
failure message in `mcpInitErr`; later calls return the cached outcome without
running the body.  `sync.Once` serialises concurrent first callers, so a turn
sequence is an arbitrary linearisation of the calls.  Result: (new state,
returned error, events of this call). -/
def ensureDefaultMcpClient (env : Env) (st : McpState) :
    McpState × Option String × List Event :=
  match st with
  | .uninit =>
      match env.newDefaultClient with
      | .error e =>
          let msg := "failed to create default MCP client: " ++ e
          (.failed msg, some msg, [.onceBodyRun])
      | .ok _ =>
          match env.initDefault with
          | .error e =>
              let msg := "failed to initialize MCP client: " ++ e
              (.failed msg, some msg, [.onceBodyRun, .clientCreated .default])
          | .ok _ => (.ready, none, [.onceBodyRun, .clientCreated .default])
  | .ready => (.ready, none, [])
  | .failed e => (.failed e, some e, [])

/-- Embedding of `getMcpClient` (internal/handler/new.go:144-187): an empty
user token selects the process-wide default client (created at process start
in this variant) with a no-op cleanup; a non-empty token creates a fresh
ephemeral client, performs its handshake, and returns the closing cleanup. -/
def getMcpClient (env : Env) (userToken : String) :
    Except String (ClientKind × Cleanup) × List Event :=
  if userToken == "" then
    (.ok (.default, .noop), [])
  else
    match env.newEphemeralClient with
    | .error e => (.error e, [])
    | .ok _ =>
        match env.initEphemeral with
        | .error e =>
            (.error ("failed to initialize MCP client: " ++ e), [.clientCreated .ephemeral])
        | .ok _ => (.ok (.ephemeral, .closeClient), [.clientCreated .ephemeral])

/-- Embedding of the lazy-variant `getMcpClient`
(src/unnamed/part_005:93-137): an empty token first demands the default client
through `ensureDefaultMcpClient`; a non-empty token behaves as in the other
variant. -/
def getMcpClientLazy (env : Env) (st : McpState) (userToken : String) :
    McpState × Except String (ClientKind × Cleanup) × List Event :=
  if userToken == "" then
    match ensureDefaultMcpClient env st with
    | (stNew, some e, evs) => (stNew, .error e, evs)
    | (stNew, none, evs) => (stNew, .ok (.default, .noop), evs)
  else
    match env.newEphemeralClient with
    | .error e => (st, .error e, [])
    | .ok _ =>
        match env.initEphemeral with
        | .error e =>
            (st, .error ("failed to initialize MCP client: " ++ e), [.clientCreated .ephemeral])
        | .ok _ => (st, .ok (.ephemeral, .closeClient), [.clientCreated .ephemeral])

/-- Effect of invoking the cleanup returned by `getMcpClient` (the `defer
cleanup()` of handler.go:179): the no-op emits nothing; the ephemeral cleanup
closes the client. -/
def cleanupEvents : Cleanup → List Event
  | .noop => []
  | .closeClient => [.clientClosed]

/-- Embedding of `sendMarkdownMessage` (message.go:29-42) at the loop level:
empty text posts nothing and yields an empty timestamp; otherwise the Slack
`PostMessage` call is recorded and its timestamp returned.  A post failure
only affects the returned timestamp value, which the orchestrator treats as
opaque, so it is subsumed by the arbitrary `Env.postTs`. -/
def sendMarkdown (env : Env) (s : LoopState) (text : String) : String × LoopState :=
  if text == "" then ("", s)
  else
    let ts := env.postTs s.postCount
    (ts, { s with postCount := s.postCount + 1, trace := s.trace ++ [.posted text ts] })

/-- Effect of `updateMessage` at the loop level: record the in-place edit.
The embedded `updateMessage` above returns `nil` unconditionally, so no error
can flow back into the loop (all call sites discard it anyway). -/
def updateMsg (s : LoopState) (ts text : String) : LoopState :=
  { s with trace := s.trace ++ [.updated ts text] }

/-- Embedding of `addToolCallToMessages` (handler.go:260-274): append the
assistant message that carries the requested tool call, with the arguments
rendered by `prettyPrintJSON`. -/
def addToolCallToMessages (env : Env) (messages : List ChatMessage)
    (toolCall : ToolCall) : List ChatMessage :=
  messages ++ [.assistantToolCall toolCall.id toolCall.name (env.prettyPrintJson toolCall.args)]

/-- Embedding of `processToolResult` (handler.go:296-321), statement by
statement: print and maybe summarize the result (the summarizer error is
discarded at this call site), append the tool-result message, build the
collapsible progress line, then either post a fresh progress message (edge of
the 40,000-character ceiling) or edit the current one in place; finally the
unconditional trailing `append` of the Go source runs in both branches. -/
def processToolResult (env : Env) (channelID threadTS : String) (s : LoopState)
    (toolCall : ToolCall) (result : List ToolContent) : LoopState :=
  let summarized := summarizeIfTooLong env (printToolResult result)
  let toolResultStr := summarized.1.1
  let s := { s with trace := s.trace ++ summarized.2 }
  let s := { s with messages := s.messages ++ [.toolResult toolCall.id toolResultStr] }
  let title := env.formatToolCall toolCall.name toolCall.args
  let slackMessage := createCollapsibleBlocks title (formatCallToolResult toolResultStr) false
  if shouldCreateNewMessage s.lines slackMessage then
    let sent := sendMarkdown env s slackMessage
    let s := { sent.2 with timestamp := sent.1, lines := [] }
    { s with lines := s.lines ++ [slackMessage] }
  else
    let s := { s with lines := s.lines ++ [slackMessage] }
    let s := updateMsg s s.timestamp (String.intercalate "\n\n" s.lines)
    { s with lines := s.lines ++ [slackMessage] }

/-- Result of the inner per-round tool-call loop: either the Go `return` from
inside the `for` (the permission denial) or normal fall-through. -/
inductive InnerResult where
  | aborted (err : String)
  | continued
  deriving Repr, DecidableEq

/-- The permission-denial notice posted by the gate (handler.go:207). -/
def permissionDeniedNotice (toolName : String) : String :=
  "❌ Permission denied. You should set your personal token first to use `" ++ toolName ++ "`"

/-- The error returned for a denied mutating call (handler.go:208). -/
def permissionDeniedError : String :=
  "you don\x27t have permission to use this tool"

/-- The progress line announcing a tool call (handler.go:215-218). -/
def callingToolLine (env : Env) (toolCall : ToolCall) : String :=
  "🔄 _Calling Tool *" ++ toolCall.name ++ "*_" ++
    (if toolCall.args.length > 0 then "\n>_" ++ env.printJson toolCall.args ++ "_" else "")

/-- State change before invoking an allowed tool (handler.go:211-221): append
the tool-call message, append and report the progress line, and record that
the invocation reaches the backend. -/
def toolCallSetup (env : Env) (s : LoopState) (toolCall : ToolCall) : LoopState :=
  let s := { s with messages := addToolCallToMessages env s.messages toolCall }
  let s := { s with lines := s.lines ++ [callingToolLine env toolCall] }
  let s := updateMsg s s.timestamp (String.intercalate "\n\n" s.lines)
  { s with trace := s.trace ++ [.callTool toolCall.name] }

/-- Embedding of the inner tool-call loop of `runConversationLoop`
(handler.go:204-235): for each requested call in order, the permission gate
may deny (mutating tool and empty token: post the denial notice and return an
error for the whole turn); otherwise append the tool-call message, report
progress, invoke the tool, and on failure append a tool-result message
carrying the error text and continue with the remaining calls. -/
def processToolCalls (env : Env) (channelID threadTS userToken : String) :
    List ToolCall → LoopState → InnerResult × LoopState
  | [], s => (.continued, s)
  | toolCall :: rest, s =>
    if writableJiraTools.contains toolCall.name && userToken == "" then
      let s := (sendMarkdown env s (permissionDeniedNotice toolCall.name)).2
      (.aborted permissionDeniedError, s)
    else
      let s := toolCallSetup env s toolCall
      match env.callTool toolCall with
      | .error e =>
          let s := { s with messages := s.messages ++ [.toolResult toolCall.id e] }
          processToolCalls env channelID threadTS userToken rest s
      | .ok result =>
          let s := processToolResult env channelID threadTS s toolCall result
          processToolCalls env channelID threadTS userToken rest s

/-- The warning line posted at round exhaustion (handler.go:325). -/
def maxRoundsWarning : String :=
  "⚠️ Reached maximum number of steps. Providing partial response based on current progress..."

/-- The partial-answer string returned at round exhaustion (handler.go:327). -/
def maxRoundsAnswer (lastResponse : String) : String :=
  "Reached maximum conversation rounds. Last response: " ++ lastResponse ++
    ". \nDo you want me to continue?"

/-- Embedding of `handleMaxRoundsReached` (handler.go:324-328): post the
warning progress line and return the partial answer built from the last model
content. -/
def handleMaxRoundsReached (env : Env) (channelID threadTS lastResponse : String)
    (s : LoopState) : String × LoopState :=
  let s := (sendMarkdown env s maxRoundsWarning).2
  (maxRoundsAnswer lastResponse, s)

/-- Round entry (handler.go:182-186): trim the window and issue the model
call. -/
def thinkState (s : LoopState) : LoopState :=
  { s with messages := trimMessages s.messages, trace := s.trace ++ [.chatRound] }

/-- Interim-content reporting (handler.go:198-201): a non-empty model content
is appended to the progress lines and the displayed message is edited. -/
def contentStep (s : LoopState) (response : ChatResponse) : LoopState :=
  if response.content ≠ "" then
    let s := { s with lines := s.lines ++ [response.content] }
    updateMsg s s.timestamp (String.intercalate "\n\n" s.lines)
  else s

/-- Embedding of the round loop of `runConversationLoop` (handler.go:181-245),
with `fuel = maxRounds - currentRound` as the remaining round budget: trim the
window, call the model (an error posts the default notice and aborts the
turn), return the content on completion, otherwise report the interim content,
process the requested tool calls (a permission denial aborts the turn), and
after `currentRound++` either hand over to `handleMaxRoundsReached` (budget
exhausted) or continue.  The `fuel = 0` base case is the unreachable trailing
`return "", nil` of the Go source. -/
def runLoopAux (env : Env) (channelID threadTS userToken : String) :
    Nat → LoopState → Except String String × LoopState
  | 0, s => (.ok "", s)
  | fuel + 1, s =>
    let s := thinkState s
    match env.chatWithTools s.messages with
    | .error e =>
        let s := (sendMarkdown env s (defaultErrorMessage e)).2
        (.error ("failed to get chat completion: " ++ e), s)
    | .ok response =>
      if response.isComplete then (.ok response.content, s)
      else
        let s := contentStep s response
        match processToolCalls env channelID threadTS userToken response.toolCalls s with
        | (.aborted e, s) => (.error e, s)
        | (.continued, s) =>
          if fuel = 0 then
            let handled := handleMaxRoundsReached env channelID threadTS response.content s
            (.ok handled.1, handled.2)
          else
            runLoopAux env channelID threadTS userToken fuel s

/-- Embedding of `runConversationLoop` (handler.go:169-246) with the eager
gateway of `internal/handler/new.go`: resolve the MCP client (an error posts
the default notice and aborts the turn), run up to `maxRounds = 20` rounds,
and — like the Go `defer cleanup()` — invoke the cleanup on every exit path
after successful resolution. -/
def runConversationLoop (env : Env) (channelID threadTS timestamp : String)
    (messages : List ChatMessage) (slackMessageLines : List String)
    (userToken : String) : Except String String × LoopState :=
  let s0 : LoopState :=
    { messages := messages, timestamp := timestamp, lines := slackMessageLines
    , postCount := 0, trace := [] }
  match getMcpClient env userToken with
  | (.error e, evs) =>
      let s := (sendMarkdown env { s0 with trace := evs } (defaultErrorMessage e)).2
      (.error ("failed to get MCP client: " ++ e), s)
  | (.ok (_, cleanup), evs) =>
      let run := runLoopAux env channelID threadTS userToken 20 { s0 with trace := evs }
      (run.1, { run.2 with trace := run.2.trace ++ cleanupEvents cleanup })

/-- Embedding of `runConversationLoop` over the lazy gateway of
`src/unnamed/part_005` (`getMcpClient` there calls `ensureDefaultMcpClient`
on an empty token); also returns the resulting lazy-client state. -/
def runConversationLoopLazy (env : Env) (st : McpState)
    (channelID threadTS timestamp : String) (messages : List ChatMessage)
    (slackMessageLines : List String) (userToken : String) :
    Except String String × LoopState × McpState :=
  let s0 : LoopState :=
    { messages := messages, timestamp := timestamp, lines := slackMessageLines
    , postCount := 0, trace := [] }
  match getMcpClientLazy env st userToken with
  | (stNew, .error e, evs) =>
      let s := (sendMarkdown env { s0 with trace := evs } (defaultErrorMessage e)).2
      (.error ("failed to get MCP client: " ++ e), s, stNew)
  | (stNew, .ok (_, cleanup), evs) =>
      let run := runLoopAux env channelID threadTS userToken 20 { s0 with trace := evs }
      (run.1, { run.2 with trace := run.2.trace ++ cleanupEvents cleanup }, stNew)

/-- Iterated `ensureDefaultMcpClient` calls: the linearisation of any number
of `getMcpClient` requests with an empty credential (the enclosing
`getMcpClient` adds no state of its own).  Returns the final lazy-client
state, the per-call returned errors (`none` = success) in order, and the
concatenated events. -/
def ensureDefaultSeq (env : Env) : Nat → McpState → McpState × List (Option String) × List Event
  | 0, st => (st, [], [])
  | n + 1, st =>
      let firstCall := ensureDefaultMcpClient env st
      let rest := ensureDefaultSeq env n firstCall.1
      (rest.1, firstCall.2.1 :: rest.2.1, firstCall.2.2 ++ rest.2.2)

/-- Events the loop body (reporting, summarizer, tool invocation) may emit;
client-lifecycle events are never among them. -/
def isInnerEvent : Event → Bool
  | .posted _ _ => true
  | .updated _ _ => true
  | .chatCall => true
  | .callTool _ => true
  | _ => false

/-- Events a turn may emit after client resolution and before cleanup; the
client-lifecycle events are excluded. -/
def isTurnEvent : Event → Bool
  | .clientCreated _ => false
  | .clientClosed => false
  | .onceBodyRun => false
  | _ => true

theorem isTurnEvent_of_isInnerEvent {e : Event} (h : isInnerEvent e = true) :
    isTurnEvent e = true := by
  cases e <;> simp_all [isInnerEvent, isTurnEvent]

theorem count_eq_zero_of_forall (a : Event) {t : List Event} {p : Event → Bool}
    (h : ∀ e ∈ t, p e = true) (ha : p a = false) : t.count a = 0 := by
  rw [List.count_eq_zero]
  intro hm
  have hpa := h a hm
  rw [ha] at hpa
  exact absurd hpa (by simp)

theorem sendMarkdown_trace (env : Env) (s : LoopState) (text : String) :
    ∃ t, (sendMarkdown env s text).2.trace = s.trace ++ t ∧
      ∀ e ∈ t, isInnerEvent e = true := by
  unfold sendMarkdown
  split
  · exact ⟨[], by simp, by simp⟩
  · exact ⟨[.posted text (env.postTs s.postCount)], rfl, by simp [isInnerEvent]⟩

theorem summarizeIfTooLong_trace (env : Env) (content : String) :
    ∀ e ∈ (summarizeIfTooLong env content).2, isInnerEvent e = true := by
  intro e he
  unfold summarizeIfTooLong at he
  dsimp only at he
  split at he
  · simp at he
  · split at he
    · simp at he
      simp [he, isInnerEvent]
    · split at he <;> simp_all [isInnerEvent]

theorem processToolResult_trace (env : Env) (cid tts : String) (s : LoopState)
    (tc : ToolCall) (result : List ToolContent) :
    ∃ t, (processToolResult env cid tts s tc result).trace = s.trace ++ t ∧
      ∀ e ∈ t, isInnerEvent e = true := by
  have hsum := summarizeIfTooLong_trace env (printToolResult result)
  unfold processToolResult
  dsimp only
  set summ := summarizeIfTooLong env (printToolResult result) with hsummdef
  set msg := createCollapsibleBlocks (env.formatToolCall tc.name tc.args)
      (formatCallToolResult summ.1.1) false with hmsgdef
  split
  · by_cases hmsg : msg = ""
    · refine ⟨summ.2, by simp [sendMarkdown, hmsg], ?_⟩
      intro e he
      exact hsum e he
    · refine ⟨summ.2 ++ [.posted msg (env.postTs s.postCount)],
        by simp [sendMarkdown, hmsg], ?_⟩
      intro e he
      rcases List.mem_append.mp he with h | h
      · exact hsum e h
      · simp at h
        simp [h, isInnerEvent]
  · refine ⟨summ.2 ++ [.updated s.timestamp (String.intercalate "\n\n" (s.lines ++ [msg]))],
      by simp [updateMsg], ?_⟩
    intro e he
    rcases List.mem_append.mp he with h | h
    · exact hsum e h
    · simp at h
      simp [h, isInnerEvent]

theorem toolCallSetup_trace (env : Env) (s : LoopState) (tc : ToolCall) :
    (toolCallSetup env s tc).trace = s.trace ++
      [.updated s.timestamp (String.intercalate "\n\n" (s.lines ++ [callingToolLine env tc])),
       .callTool tc.name] := by
  simp [toolCallSetup, updateMsg, addToolCallToMessages]

theorem contentStep_trace (s : LoopState) (r : ChatResponse) :
    ∃ t, (contentStep s r).trace = s.trace ++ t ∧ ∀ e ∈ t, isInnerEvent e = true := by
  unfold contentStep
  split
  · exact ⟨[.updated s.timestamp (String.intercalate "\n\n" (s.lines ++ [r.content]))],
      by simp [updateMsg], by simp [isInnerEvent]⟩
  · exact ⟨[], by simp, by simp⟩

theorem handleMaxRoundsReached_trace (env : Env) (cid tts c : String) (s : LoopState) :
    ∃ t, (handleMaxRoundsReached env cid tts c s).2.trace = s.trace ++ t ∧
      ∀ e ∈ t, isInnerEvent e = true := by
  unfold handleMaxRoundsReached
  dsimp only
  exact sendMarkdown_trace env s maxRoundsWarning

theorem processToolCalls_trace (env : Env) (cid tts token : String) (calls : List ToolCall) :
    ∀ s : LoopState, ∃ t, (processToolCalls env cid tts token calls s).2.trace = s.trace ++ t ∧
      ∀ e ∈ t, isInnerEvent e = true := by
  induction calls with
  | nil =>
      intro s
      exact ⟨[], by simp [processToolCalls], by simp⟩
  | cons tc rest ih =>
      intro s
      unfold processToolCalls
      dsimp only
      split
      · exact sendMarkdown_trace env s (permissionDeniedNotice tc.name)
      · split
        · obtain ⟨t2, h2, hp2⟩ := ih _
          refine ⟨[.updated s.timestamp
              (String.intercalate "\n\n" (s.lines ++ [callingToolLine env tc])),
              .callTool tc.name] ++ t2, ?_, ?_⟩
          · rw [h2]
            show (toolCallSetup env s tc).trace ++ t2 = _
            rw [toolCallSetup_trace]
            simp
          · intro e he
            rcases List.mem_append.mp he with h | h
            · simp at h
              rcases h with h | h <;> simp [h, isInnerEvent]
            · exact hp2 e h
        · obtain ⟨t2, h2, hp2⟩ := ih _
          obtain ⟨t3, h3, hp3⟩ := processToolResult_trace env cid tts (toolCallSetup env s tc) tc _
          refine ⟨[.updated s.timestamp
              (String.intercalate "\n\n" (s.lines ++ [callingToolLine env tc])),
              .callTool tc.name] ++ t3 ++ t2, ?_, ?_⟩
          · rw [h2, h3, toolCallSetup_trace]
            simp
          · intro e he
            rcases List.mem_append.mp he with h | h
            · rcases List.mem_append.mp h with h | h
              · simp at h
                rcases h with h | h <;> simp [h, isInnerEvent]
              · exact hp3 e h
            · exact hp2 e h

theorem runLoopAux_trace (env : Env) (cid tts token : String) :
    ∀ (fuel : Nat) (s : LoopState),
      ∃ t, (runLoopAux env cid tts token fuel s).2.trace = s.trace ++ t ∧
        (∀ e ∈ t, isTurnEvent e = true) ∧ t.count .chatRound ≤ fuel := by
  intro fuel
  induction fuel with
  | zero =>
      intro s
      exact ⟨[], by simp [runLoopAux], by simp, by simp⟩
  | succ fuel ih =>
      intro s
      unfold runLoopAux
      dsimp only
      split
      · obtain ⟨t1, h1, hp1⟩ := sendMarkdown_trace env (thinkState s) (defaultErrorMessage _)
        refine ⟨.chatRound :: t1, ?_, ?_, ?_⟩
        · rw [h1]
          show (thinkState s).trace ++ t1 = _
          simp [thinkState]
        · intro e he
          rcases List.mem_cons.mp he with h | h
          · simp [h, isTurnEvent]
          · exact isTurnEvent_of_isInnerEvent (hp1 e h)
        · have e1 := count_eq_zero_of_forall Event.chatRound hp1 (by simp [isInnerEvent])
          simp [List.count_cons, e1]
      · split
        · exact ⟨[.chatRound], by simp [thinkState], by simp [isTurnEvent],
            by simp [List.count_cons]⟩
        · obtain ⟨t1, h1, hp1⟩ := contentStep_trace (thinkState s) _
          split
          · rename_i s2 heq
            obtain ⟨t2, h2, hp2⟩ := processToolCalls_trace env cid tts token _ (contentStep (thinkState s) _)
            rw [heq] at h2
            refine ⟨.chatRound :: (t1 ++ t2), ?_, ?_, ?_⟩
            · show s2.trace = _
              rw [h2, h1]
              simp [thinkState]
            · intro e he
              rcases List.mem_cons.mp he with h | h
              · simp [h, isTurnEvent]
              · rcases List.mem_append.mp h with h | h
                · exact isTurnEvent_of_isInnerEvent (hp1 e h)
                · exact isTurnEvent_of_isInnerEvent (hp2 e h)
            · have e1 := count_eq_zero_of_forall Event.chatRound hp1 (by simp [isInnerEvent])
              have e2 := count_eq_zero_of_forall Event.chatRound hp2 (by simp [isInnerEvent])
              simp [List.count_cons, List.count_append, e1, e2]
          · rename_i s2 heq
            obtain ⟨t2, h2, hp2⟩ := processToolCalls_trace env cid tts token _ (contentStep (thinkState s) _)
            rw [heq] at h2
            split
            · obtain ⟨t3, h3, hp3⟩ := handleMaxRoundsReached_trace env cid tts _ s2
              refine ⟨.chatRound :: (t1 ++ t2 ++ t3), ?_, ?_, ?_⟩
              · rw [h3, h2, h1]
                simp [thinkState]
              · intro e he
                rcases List.mem_cons.mp he with h | h
                · simp [h, isTurnEvent]
                · rcases List.mem_append.mp h with h | h
                  · rcases List.mem_append.mp h with h | h
                    · exact isTurnEvent_of_isInnerEvent (hp1 e h)
                    · exact isTurnEvent_of_isInnerEvent (hp2 e h)
                  · exact isTurnEvent_of_isInnerEvent (hp3 e h)
              · have e1 := count_eq_zero_of_forall Event.chatRound hp1 (by simp [isInnerEvent])
                have e2 := count_eq_zero_of_forall Event.chatRound hp2 (by simp [isInnerEvent])
                have e3 := count_eq_zero_of_forall Event.chatRound hp3 (by simp [isInnerEvent])
                simp [List.count_cons, List.count_append, e1, e2, e3]
            · obtain ⟨t3, h3, hp3, hc3⟩ := ih s2
              refine ⟨.chatRound :: (t1 ++ t2 ++ t3), ?_, ?_, ?_⟩
              · rw [h3, h2, h1]
                simp [thinkState]
              · intro e he
                rcases List.mem_cons.mp he with h | h
                · simp [h, isTurnEvent]
                · rcases List.mem_append.mp h with h | h
                  · rcases List.mem_append.mp h with h | h
                    · exact isTurnEvent_of_isInnerEvent (hp1 e h)
                    · exact isTurnEvent_of_isInnerEvent (hp2 e h)
                  · exact hp3 e h
              · have e1 := count_eq_zero_of_forall Event.chatRound hp1 (by simp [isInnerEvent])
                have e2 := count_eq_zero_of_forall Event.chatRound hp2 (by simp [isInnerEvent])
                simp [List.count_cons, List.count_append, e1, e2]
                omega

/-- A base concrete environment for witnesses and counterexamples: the model
completes immediately, the summarizer backend is down, tools succeed with a
short text result, the renderers are trivial, and all client operations
succeed. -/
def envBase : Env :=
  { chatWithTools := fun _ => .ok { content := "done", toolCalls := [], isComplete := true }
  , chat := fun _ => .error "summarizer down"
  , callTool := fun _ => .ok [.text "ok"]
  , formatToolCall := fun n _ => n
  , printJson := fun _ => "\x7b\x7d"
  , prettyPrintJson := fun _ => "\x7b\x7d"
  , postTs := fun n => "ts" ++ toString n
  , newEphemeralClient := .ok ()
  , initEphemeral := .ok ()
  , newDefaultClient := .ok ()
  , initDefault := .ok () }

/-- C2: for a window of more than 21 entries `trimMessages` returns exactly
21 entries — the element at index 0 of the input followed by the last 20
elements of the input in their original order; a window of at most 21 entries
is returned unchanged. -/
theorem trimMessages_window (ms : List ChatMessage) :
    (21 < ms.length →
      trimMessages ms = ms.take 1 ++ ms.drop (ms.length - 20) ∧
      (trimMessages ms).length = 21 ∧
      (trimMessages ms).head? = ms.head? ∧
      (trimMessages ms).drop 1 = ms.drop (ms.length - 20)) ∧
    (ms.length ≤ 21 → trimMessages ms = ms) := by
  constructor
  · intro h
    have heq : trimMessages ms = ms.take 1 ++ ms.drop (ms.length - 20) := by
      unfold trimMessages
      dsimp only
      rw [if_pos h]
    refine ⟨heq, ?_, ?_, ?_⟩
    · rw [heq]
      simp only [List.length_append, List.length_take, List.length_drop]
      omega
    · rw [heq]
      cases ms with
      | nil => simp at h
      | cons a t => simp
    · rw [heq]
      cases ms with
      | nil => simp at h
      | cons a t => simp
  · intro h
    unfold trimMessages
    dsimp only
    rw [if_neg (by omega)]

/-- Witness for C2 at a concrete window of 25 user messages. -/
theorem trimMessages_window_witness :
    21 < (List.replicate 25 (ChatMessage.user "m")).length ∧
    trimMessages (List.replicate 25 (ChatMessage.user "m")) =
      (List.replicate 25 (ChatMessage.user "m")).take 1 ++
        (List.replicate 25 (ChatMessage.user "m")).drop 5 ∧
    (trimMessages (List.replicate 25 (ChatMessage.user "m"))).length = 21 := by
  have h := (trimMessages_window (List.replicate 25 (ChatMessage.user "m"))).1 (by simp)
  exact ⟨by simp, h.1, h.2.1⟩

/-- C8: `summarizeIfTooLong` returns content of at most 2000 characters
unchanged with no auxiliary model call; for longer content it issues exactly
one auxiliary call, and on a failed call or an empty result it returns the
original content together with the underlying error of that call. -/
theorem summarizeIfTooLong_fallback (env : Env) (content : String) :
    (content.length ≤ 2000 → summarizeIfTooLong env content = ((content, none), [])) ∧
    (2000 < content.length →
      (summarizeIfTooLong env content).2 = [.chatCall] ∧
      (∀ e, env.chat [.system summarySystemInstruction, .user content] = .error e →
        (summarizeIfTooLong env content).1 = (content, some e)) ∧
      (env.chat [.system summarySystemInstruction, .user content] = .ok "" →
        (summarizeIfTooLong env content).1 = (content, none)) ∧
      (∀ r, r ≠ "" → env.chat [.system summarySystemInstruction, .user content] = .ok r →
        (summarizeIfTooLong env content).1 = (r, none))) := by
  constructor
  · intro h
    unfold summarizeIfTooLong
    dsimp only
    rw [if_pos h]
  · intro h
    have hn : ¬ content.length ≤ 2000 := by omega
    unfold summarizeIfTooLong
    dsimp only
    rw [if_neg hn]
    refine ⟨?_, ?_, ?_, ?_⟩
    · cases hc : env.chat [.system summarySystemInstruction, .user content] with
      | error e => rfl
      | ok r =>
          dsimp only
          split <;> rfl
    · intro e he
      rw [he]
    · intro he
      rw [he]
      simp
    · intro r hr he
      rw [he]
      simp [hr]

/-- Witness for C8: short content is passed through; long content falls back
to the original on a summarizer failure. -/
theorem summarizeIfTooLong_fallback_witness :
    String.length "short" ≤ 2000 ∧
    summarizeIfTooLong envBase "short" = (("short", none), []) ∧
    2000 < (String.mk (List.replicate 2001 'a')).length ∧
    (summarizeIfTooLong envBase (String.mk (List.replicate 2001 'a'))).1 =
      (String.mk (List.replicate 2001 'a'), some "summarizer down") := by
  have hlong : 2000 < (String.mk (List.replicate 2001 'a')).length := by
    show 2000 < (List.replicate 2001 'a').length
    rw [List.length_replicate]
    omega
  refine ⟨by decide, (summarizeIfTooLong_fallback envBase "short").1 (by decide), hlong, ?_⟩
  exact ((summarizeIfTooLong_fallback envBase _).2 hlong).2.1 "summarizer down" rfl

/-- C5: evaluation of `processToolResult` at a short successful tool result
with accumulated lines `["a"]`.  The combined rendering stays far below the
40,000-character ceiling, so the edit-in-place branch runs — and the rendered
progress line ends up in the accumulated buffer twice (once from the append
inside the `else` branch at handler.go:315 and once from the unconditional
trailing append at handler.go:318), while the text displayed by this call
contains it once. -/
theorem processToolResult_duplicates_progressLine :
    (processToolResult envBase "C" "T"
        { messages := [], timestamp := "t1", lines := ["a"], postCount := 0, trace := [] }
        { id := "1", name := "jira_get_issue", args := [] }
        [.text "ok"]).lines =
      ["a", "✅️ _jira_get_issue_\n>_ok_", "✅️ _jira_get_issue_\n>_ok_"] ∧
    (processToolResult envBase "C" "T"
        { messages := [], timestamp := "t1", lines := ["a"], postCount := 0, trace := [] }
        { id := "1", name := "jira_get_issue", args := [] }
        [.text "ok"]).trace =
      [.updated "t1" "a\n\n✅️ _jira_get_issue_\n>_ok_"] := by
  have h : formatCallToolResult
      (summarizeIfTooLong envBase (printToolResult [ToolContent.text "ok"])).1.1 = ">_ok_" := by
    show formatCallToolResult "ok" = ">_ok_"
    rw [formatCallToolResult, String.split_of_valid]
    rfl
  constructor
  · unfold processToolResult
    dsimp only
    rw [h]
    rfl
  · unfold processToolResult
    dsimp only
    rw [h]
    rfl

/-- C10: `updateMessage` returns `nil` for every input, even when the
underlying Slack `UpdateMessage` API call fails — a failed in-place progress
edit is logged and never surfaces an error. -/
theorem updateMessage_returnsNil (apiResult : Except String Unit)
    (channel timestamp message : String) :
    (updateMessage apiResult channel timestamp message).1 = none := by
  cases apiResult <;> rfl

theorem ensureDefaultSeq_stable (env : Env) (st : McpState) (hst : st ≠ .uninit) :
    ∀ n, ensureDefaultSeq env n st =
      (st, List.replicate n (ensureDefaultMcpClient env st).2.1, []) := by
  intro n
  induction n with
  | zero => simp [ensureDefaultSeq]
  | succ n ih =>
      unfold ensureDefaultSeq
      dsimp only
      cases st with
      | uninit => exact absurd rfl hst
      | ready => simp [ensureDefaultMcpClient, ih, List.replicate_succ]
      | failed e => simp [ensureDefaultMcpClient, ih, List.replicate_succ]

/-- C6: over any linearised sequence of `getMcpClient` calls with an empty
credential, the body of the one-time initialisation runs at most once (exactly
once as soon as there is at least one call); every call observes the same
outcome as the first; if the single attempt fails — at client creation or at
the handshake — that failure is cached and returned to every caller, and on
success every caller succeeds. -/
theorem ensureDefaultMcpClient_initOnce (env : Env) (n : Nat) :
    ((ensureDefaultSeq env n .uninit).2.2.count .onceBodyRun
        = if n = 0 then 0 else 1) ∧
    (∀ r ∈ (ensureDefaultSeq env n .uninit).2.1,
        r = (ensureDefaultMcpClient env .uninit).2.1) ∧
    (∀ e, env.newDefaultClient = .error e →
      ∀ r ∈ (ensureDefaultSeq env n .uninit).2.1,
        r = some ("failed to create default MCP client: " ++ e)) ∧
    (∀ e u, env.newDefaultClient = .ok u → env.initDefault = .error e →
      ∀ r ∈ (ensureDefaultSeq env n .uninit).2.1,
        r = some ("failed to initialize MCP client: " ++ e)) ∧
    (∀ u v, env.newDefaultClient = .ok u → env.initDefault = .ok v →
      ∀ r ∈ (ensureDefaultSeq env n .uninit).2.1, r = none) := by
  cases n with
  | zero =>
      refine ⟨by simp [ensureDefaultSeq], ?_, ?_, ?_, ?_⟩ <;> simp [ensureDefaultSeq]
  | succ n =>
      cases hnd : env.newDefaultClient with
      | error e =>
          have h1 : ensureDefaultMcpClient env McpState.uninit =
              (.failed ("failed to create default MCP client: " ++ e),
                some ("failed to create default MCP client: " ++ e), [.onceBodyRun]) := by
            unfold ensureDefaultMcpClient
            rw [hnd]
          have hseq : ensureDefaultSeq env (n + 1) .uninit =
              (.failed ("failed to create default MCP client: " ++ e),
                some ("failed to create default MCP client: " ++ e) ::
                  List.replicate n (some ("failed to create default MCP client: " ++ e)),
                [.onceBodyRun]) := by
            unfold ensureDefaultSeq
            dsimp only
            rw [h1, ensureDefaultSeq_stable env _ (by simp) n]
            simp [ensureDefaultMcpClient]
          refine ⟨by rw [hseq]; simp, ?_, ?_, ?_, ?_⟩
          · rw [hseq, h1]
            intro r hr
            simp at hr
            rcases hr with hr | hr <;> simp [hr]
          · intro e2 he2 r hr
            injection he2 with h3
            subst h3
            rw [hseq] at hr
            simp at hr
            rcases hr with hr | hr <;> simp [hr]
          · intro e2 u hu
            exact absurd hu (by simp)
          · intro u v hu
            exact absurd hu (by simp)
      | ok u0 =>
          cases hid : env.initDefault with
          | error e =>
              have h1 : ensureDefaultMcpClient env McpState.uninit =
                  (.failed ("failed to initialize MCP client: " ++ e),
                    some ("failed to initialize MCP client: " ++ e),
                    [.onceBodyRun, .clientCreated .default]) := by
                unfold ensureDefaultMcpClient
                rw [hnd, hid]
              have hseq : ensureDefaultSeq env (n + 1) .uninit =
                  (.failed ("failed to initialize MCP client: " ++ e),
                    some ("failed to initialize MCP client: " ++ e) ::
                      List.replicate n (some ("failed to initialize MCP client: " ++ e)),
                    [.onceBodyRun, .clientCreated .default]) := by
                unfold ensureDefaultSeq
                dsimp only
                rw [h1, ensureDefaultSeq_stable env _ (by simp) n]
                simp [ensureDefaultMcpClient]
              refine ⟨by rw [hseq]; simp, ?_, ?_, ?_, ?_⟩
              · rw [hseq, h1]
                intro r hr
                simp at hr
                rcases hr with hr | hr <;> simp [hr]
              · intro e2 he2
                exact absurd he2 (by simp)
              · intro e2 u hu hi r hr
                injection hi with h3
                subst h3
                rw [hseq] at hr
                simp at hr
                rcases hr with hr | hr <;> simp [hr]
              · intro u v hu hv
                exact absurd hv (by simp)
          | ok v0 =>
              have h1 : ensureDefaultMcpClient env McpState.uninit =
                  (.ready, none, [.onceBodyRun, .clientCreated .default]) := by
                unfold ensureDefaultMcpClient
                rw [hnd, hid]
              have hseq : ensureDefaultSeq env (n + 1) .uninit =
                  (.ready, none :: List.replicate n none,
                    [.onceBodyRun, .clientCreated .default]) := by
                unfold ensureDefaultSeq
                dsimp only
                rw [h1, ensureDefaultSeq_stable env _ (by simp) n]
                simp [ensureDefaultMcpClient]
              refine ⟨by rw [hseq]; simp, ?_, ?_, ?_, ?_⟩
              · rw [hseq, h1]
                intro r hr
                simp at hr
                rcases hr with hr | hr <;> simp [hr]
              · intro e2 he2
                exact absurd he2 (by simp)
              · intro e2 u hu hi
                exact absurd hi (by simp)
              · intro u v hu hv r hr
                rw [hseq] at hr
                simp at hr
                rcases hr with hr | hr <;> simp [hr]

/-- Witness for C6: three empty-credential requests against an environment
whose single creation attempt fails — the once body runs exactly once and all
three callers get the cached failure. -/
theorem ensureDefaultMcpClient_initOnce_witness :
    ((ensureDefaultSeq { envBase with newDefaultClient := .error "no uvx" } 3
        .uninit).2.2.count .onceBodyRun = 1) ∧
    (∀ r ∈ (ensureDefaultSeq { envBase with newDefaultClient := .error "no uvx" } 3
        .uninit).2.1,
      r = some ("failed to create default MCP client: " ++ "no uvx")) := by
  have h := ensureDefaultMcpClient_initOnce
    { envBase with newDefaultClient := .error "no uvx" } 3
  exact ⟨by simpa using h.1, h.2.2.1 "no uvx" rfl⟩

theorem permissionDeniedNotice_ne_empty (name : String) :
    (permissionDeniedNotice name == "") = false := by
  rw [beq_eq_false_iff_ne]
  intro h
  have hlen := congrArg String.length h
  simp [permissionDeniedNotice, String.length_append] at hlen
  exact absurd hlen.2 (by decide)

theorem processToolCalls_denied (env : Env) (cid tts : String) (tc : ToolCall)
    (rest : List ToolCall) (s : LoopState)
    (hw : writableJiraTools.contains tc.name = true) :
    processToolCalls env cid tts "" (tc :: rest) s =
      (.aborted permissionDeniedError,
        { s with postCount := s.postCount + 1,
                 trace := s.trace ++
                   [.posted (permissionDeniedNotice tc.name) (env.postTs s.postCount)] }) := by
  unfold processToolCalls
  dsimp only
  rw [hw]
  simp only [Bool.true_and, beq_self_eq_true, if_true]
  unfold sendMarkdown
  rw [permissionDeniedNotice_ne_empty]
  rfl

/-- C1: the permission gate of the conversation loop.  First conjunct: a
requested call whose tool name is in `writableJiraTools`, under an empty
credential, makes the inner loop post the permission-denied notice and abort
with the permission error, leaving the remaining requested calls untouched.
Second conjunct: an aborted inner loop makes the whole round loop return that
error immediately — the rest of the turn is abandoned, not just the denied
call.  Third conjunct: a call with a non-empty credential or with a
non-mutating tool name proceeds to execution (its invocation reaches the
backend). -/
theorem conversationLoop_permissionGate (env : Env) (cid tts : String) :
    (∀ (tc : ToolCall) (rest : List ToolCall) (s : LoopState),
      writableJiraTools.contains tc.name = true →
      processToolCalls env cid tts "" (tc :: rest) s =
        (.aborted permissionDeniedError,
          { s with postCount := s.postCount + 1,
                   trace := s.trace ++
                     [.posted (permissionDeniedNotice tc.name) (env.postTs s.postCount)] })) ∧
    (∀ (token : String) (fuel : Nat) (s : LoopState) (response : ChatResponse) (err : String),
      env.chatWithTools (thinkState s).messages = .ok response →
      response.isComplete = false →
      (processToolCalls env cid tts token response.toolCalls
        (contentStep (thinkState s) response)).1 = .aborted err →
      (runLoopAux env cid tts token (fuel + 1) s).1 = .error err) ∧
    (∀ (token : String) (tc : ToolCall) (rest : List ToolCall) (s : LoopState),
      ¬(writableJiraTools.contains tc.name = true ∧ token = "") →
      .callTool tc.name ∈ (processToolCalls env cid tts token (tc :: rest) s).2.trace) := by
  refine ⟨?_, ?_, ?_⟩
  · intro tc rest s hw
    exact processToolCalls_denied env cid tts tc rest s hw
  · intro token fuel s response err hchat hic habort
    unfold runLoopAux
    dsimp only
    rw [hchat]
    simp only [hic, Bool.false_eq_true, if_false]
    rcases hp : processToolCalls env cid tts token response.toolCalls
      (contentStep (thinkState s) response) with ⟨ir, s2⟩
    rw [hp] at habort
    cases ir with
    | aborted e =>
        have h2 : InnerResult.aborted e = .aborted err := habort
        injection h2 with he
        subst he
        rfl
    | continued =>
        exact absurd (show InnerResult.continued = .aborted err from habort) (by simp)
  · intro token tc rest s hna
    have hcond : (writableJiraTools.contains tc.name && (token == "")) = false := by
      cases hcc : writableJiraTools.contains tc.name with
      | false => simp
      | true =>
          have hne : ¬ token = "" := fun he => hna ⟨hcc, he⟩
          simp [hne]
    unfold processToolCalls
    dsimp only
    simp only [hcond, Bool.false_eq_true, if_false]
    cases hct : env.callTool tc with
    | error e =>
        obtain ⟨t, ht, _⟩ := processToolCalls_trace env cid tts token rest _
        rw [ht]
        show Event.callTool tc.name ∈ (toolCallSetup env s tc).trace ++ t
        rw [toolCallSetup_trace]
        simp
    | ok result =>
        obtain ⟨t, ht, _⟩ := processToolCalls_trace env cid tts token rest _
        rw [ht]
        obtain ⟨t2, ht2, _⟩ := processToolResult_trace env cid tts (toolCallSetup env s tc) tc result
        rw [ht2, toolCallSetup_trace]
        simp

/-- A mutating requested call used in witnesses and counterexamples. -/
def createIssueCall : ToolCall :=
  { id := "1", name := "jira_create_issue", args := [] }

/-- A read-only requested call used in witnesses. -/
def getIssueCall : ToolCall :=
  { id := "2", name := "jira_get_issue", args := [] }

/-- A model response that requests only the mutating call in round 1. -/
def denyResponse : ChatResponse :=
  { content := "", toolCalls := [createIssueCall], isComplete := false }

/-- Environment whose model always requests the mutating call. -/
def envDeny : Env :=
  { envBase with chatWithTools := fun _ => .ok denyResponse }

/-- The loop state at the start of a fresh small turn. -/
def s0 : LoopState :=
  { messages := [], timestamp := "t0", lines := [], postCount := 0, trace := [] }

/-- Witness for C1: a denied `jira_create_issue` call with an empty credential
(inner-loop equality, and the whole turn erroring out through the round loop),
and an allowed `jira_get_issue` call reaching the backend. -/
theorem conversationLoop_permissionGate_witness :
    (processToolCalls envDeny "C" "T" "" [createIssueCall] s0 =
      (.aborted permissionDeniedError,
        { messages := [], timestamp := "t0", lines := [], postCount := 1,
          trace := [.posted (permissionDeniedNotice "jira_create_issue") "ts0"] })) ∧
    ((runLoopAux envDeny "C" "T" "" 1 s0).1 = .error permissionDeniedError) ∧
    Event.callTool "jira_get_issue" ∈
      (processToolCalls envBase "C" "T" "" [getIssueCall] s0).2.trace := by
  have hgate := conversationLoop_permissionGate envDeny "C" "T"
  refine ⟨?_, ?_, ?_⟩
  · exact hgate.1 createIssueCall [] s0 (by decide)
  · refine hgate.2.1 "" 0 s0 denyResponse permissionDeniedError rfl rfl ?_
    show (processToolCalls envDeny "C" "T" "" (createIssueCall :: [])
      (contentStep (thinkState s0) denyResponse)).1 = .aborted permissionDeniedError
    rw [hgate.1 createIssueCall [] _ (by decide)]
  · exact (conversationLoop_permissionGate envBase "C" "T").2.2 "" getIssueCall [] s0
      (by intro hc; exact absurd hc.1 (by decide))

theorem processToolCalls_cons (env : Env) (cid tts token : String) (tc : ToolCall)
    (rest : List ToolCall) (s : LoopState) :
    processToolCalls env cid tts token (tc :: rest) s =
      if writableJiraTools.contains tc.name && token == "" then
        (.aborted permissionDeniedError,
          (sendMarkdown env s (permissionDeniedNotice tc.name)).2)
      else
        match env.callTool tc with
        | .error e =>
            processToolCalls env cid tts token rest
              { toolCallSetup env s tc with
                  messages := (toolCallSetup env s tc).messages ++ [.toolResult tc.id e] }
        | .ok result =>
            processToolCalls env cid tts token rest
              (processToolResult env cid tts (toolCallSetup env s tc) tc result) := by
  rfl

theorem processToolCalls_noAbort (env : Env) (cid tts token : String)
    (htok : token ≠ "") (calls : List ToolCall) :
    ∀ s, (processToolCalls env cid tts token calls s).1 = .continued := by
  induction calls with
  | nil => intro s; rfl
  | cons tc rest ih =>
      intro s
      unfold processToolCalls
      dsimp only
      have hcond : (writableJiraTools.contains tc.name && (token == "")) = false := by
        have hb : (token == "") = false := beq_eq_false_iff_ne.mpr htok
        simp [hb]
      simp only [hcond, Bool.false_eq_true, if_false]
      cases hct : env.callTool tc with
      | error e => exact ih _
      | ok r => exact ih _

/-- C9: failure handling of the loop.  First conjunct: when an allowed tool
invocation fails, the loop appends a tool-result message carrying the error
text and continues with the remaining requested calls — the call equals the
processing of the rest from that state.  Second conjunct: with a non-empty
credential the inner loop never aborts, whatever the tool backend does — a
tool failure alone cannot end the turn.  Third conjunct, for contrast: a model
failure terminates the round loop immediately with the user-visible default
notice. -/
theorem toolFailure_recoveredLocally (env : Env) (cid tts : String) :
    (∀ (token : String) (tc : ToolCall) (rest : List ToolCall) (s : LoopState) (e : String),
      (writableJiraTools.contains tc.name && (token == "")) = false →
      env.callTool tc = .error e →
      processToolCalls env cid tts token (tc :: rest) s =
        processToolCalls env cid tts token rest
          { toolCallSetup env s tc with
              messages := (toolCallSetup env s tc).messages ++ [.toolResult tc.id e] }) ∧
    (∀ (token : String) (calls : List ToolCall) (s : LoopState),
      token ≠ "" → (processToolCalls env cid tts token calls s).1 = .continued) ∧
    (∀ (token : String) (fuel : Nat) (s : LoopState) (e : String),
      env.chatWithTools (thinkState s).messages = .error e →
      runLoopAux env cid tts token (fuel + 1) s =
        (.error ("failed to get chat completion: " ++ e),
          (sendMarkdown env (thinkState s) (defaultErrorMessage e)).2)) := by
  refine ⟨?_, ?_, ?_⟩
  · intro token tc rest s e hcond hct
    rw [processToolCalls_cons]
    simp only [hcond, Bool.false_eq_true, if_false]
    rw [hct]
  · intro token calls s htok
    exact processToolCalls_noAbort env cid tts token htok calls s
  · intro token fuel s e hchat
    unfold runLoopAux
    dsimp only
    rw [hchat]

/-- Environment whose tool backend always fails. -/
def envToolErr : Env :=
  { envBase with callTool := fun _ => .error "tool backend down" }

/-- Environment whose model backend always fails. -/
def envModelErr : Env :=
  { envBase with chatWithTools := fun _ => .error "model down" }

/-- Witness for C9: a failed `jira_get_issue` invocation is folded into the
window as an error-text tool result and the loop continues (and finishes, with
a non-empty credential); a model failure ends the round loop at once. -/
theorem toolFailure_recoveredLocally_witness :
    (processToolCalls envToolErr "C" "T" "tok" [getIssueCall] s0 =
      processToolCalls envToolErr "C" "T" "tok" []
        { toolCallSetup envToolErr s0 getIssueCall with
            messages := (toolCallSetup envToolErr s0 getIssueCall).messages ++
              [.toolResult "2" "tool backend down"] }) ∧
    ((processToolCalls envToolErr "C" "T" "tok" [getIssueCall] s0).1 = .continued) ∧
    (runLoopAux envModelErr "C" "T" "tok" 1 s0 =
      (.error ("failed to get chat completion: " ++ "model down"),
        (sendMarkdown envModelErr (thinkState s0) (defaultErrorMessage "model down")).2)) := by
  refine ⟨?_, ?_, ?_⟩
  · exact (toolFailure_recoveredLocally envToolErr "C" "T").1 "tok" getIssueCall [] s0
      "tool backend down" (by decide) rfl
  · exact (toolFailure_recoveredLocally envToolErr "C" "T").2.1 "tok" [getIssueCall] s0
      (by decide)
  · exact (toolFailure_recoveredLocally envModelErr "C" "T").2.2 "tok" 0 s0 "model down" rfl

theorem maxRoundsWarning_ne_empty : (maxRoundsWarning == "") = false := by
  decide

theorem maxRoundsAnswer_ne_empty (c : String) : maxRoundsAnswer c ≠ "" := by
  intro h
  have hlen := congrArg String.length h
  simp [maxRoundsAnswer, String.length_append] at hlen
  exact absurd hlen.2 (by decide)

theorem getMcpClient_events (env : Env) (token : String) :
    ∀ e ∈ (getMcpClient env token).2, e = .clientCreated .ephemeral := by
  unfold getMcpClient
  split
  · simp
  · cases env.newEphemeralClient with
    | error e => simp
    | ok u =>
        cases env.initEphemeral with
        | error e => simp
        | ok v => simp

theorem cleanupEvents_no_chatRound (c : Cleanup) :
    (cleanupEvents c).count Event.chatRound = 0 := by
  cases c <;> rfl

theorem handleMaxRoundsReached_eq (env : Env) (cid tts c : String) (s : LoopState) :
    handleMaxRoundsReached env cid tts c s =
      (maxRoundsAnswer c,
        { s with postCount := s.postCount + 1,
                 trace := s.trace ++ [.posted maxRoundsWarning (env.postTs s.postCount)] }) := by
  unfold handleMaxRoundsReached sendMarkdown
  rw [maxRoundsWarning_ne_empty]
  rfl

theorem runLoopAux_maxRounds (env : Env) (cid tts token : String)
    (htok : token ≠ "")
    (hModel : ∀ ms, ∃ r, env.chatWithTools ms = .ok r ∧ r.isComplete = false) :
    ∀ (fuel : Nat) (s : LoopState), ∃ c s2,
      runLoopAux env cid tts token (fuel + 1) s = (.ok (maxRoundsAnswer c), s2) ∧
      ∃ pts, .posted maxRoundsWarning pts ∈ s2.trace := by
  intro fuel
  induction fuel with
  | zero =>
      intro s
      obtain ⟨r, hr, hic⟩ := hModel (thinkState s).messages
      unfold runLoopAux
      dsimp only
      rw [hr]
      simp only [hic, Bool.false_eq_true, if_false]
      rcases hp : processToolCalls env cid tts token r.toolCalls
        (contentStep (thinkState s) r) with ⟨ir, s2⟩
      have hcont := processToolCalls_noAbort env cid tts token htok r.toolCalls
        (contentStep (thinkState s) r)
      rw [hp] at hcont
      have hir : ir = .continued := hcont
      subst hir
      dsimp only
      rw [handleMaxRoundsReached_eq]
      exact ⟨r.content, _, rfl, env.postTs s2.postCount, by simp⟩
  | succ fuel ih =>
      intro s
      obtain ⟨r, hr, hic⟩ := hModel (thinkState s).messages
      unfold runLoopAux
      dsimp only
      rw [hr]
      simp only [hic, Bool.false_eq_true, if_false]
      rcases hp : processToolCalls env cid tts token r.toolCalls
        (contentStep (thinkState s) r) with ⟨ir, s2⟩
      have hcont := processToolCalls_noAbort env cid tts token htok r.toolCalls
        (contentStep (thinkState s) r)
      rw [hp] at hcont
      have hir : ir = .continued := hcont
      subst hir
      dsimp only
      rw [if_neg (Nat.succ_ne_zero fuel)]
      exact ih s2

/-- C3: the round budget of the conversation loop.  First conjunct: every
turn issues at most 20 model rounds, whatever the environment does.  Second
conjunct: a turn whose model keeps requesting tools without ever completing
(here under a non-empty credential whose ephemeral client resolves) ends with
the warning progress line posted and returns the fixed non-empty
partial-answer string built from the content of the last model round. -/
theorem conversationLoop_roundBudget (env : Env) (cid tts ts : String)
    (msgs : List ChatMessage) (plines : List String) (token : String) :
    ((runConversationLoop env cid tts ts msgs plines token).2.trace.count .chatRound ≤ 20) ∧
    (token ≠ "" →
      env.newEphemeralClient = .ok () →
      env.initEphemeral = .ok () →
      (∀ ms, ∃ r, env.chatWithTools ms = .ok r ∧ r.isComplete = false) →
      ∃ c, (runConversationLoop env cid tts ts msgs plines token).1 =
          .ok (maxRoundsAnswer c) ∧
        (∃ pts, .posted maxRoundsWarning pts ∈
          (runConversationLoop env cid tts ts msgs plines token).2.trace) ∧
        maxRoundsAnswer c ≠ "") := by
  constructor
  · unfold runConversationLoop
    dsimp only
    rcases hgw : getMcpClient env token with ⟨res, evs⟩
    have hevs : evs.count Event.chatRound = 0 := by
      rw [List.count_eq_zero]
      intro hmem
      have := getMcpClient_events env token Event.chatRound (by rw [hgw] at *; exact hmem)
      simp at this
    cases res with
    | error e =>
        dsimp only
        obtain ⟨t1, h1, hp1⟩ := sendMarkdown_trace env
          { messages := msgs, timestamp := ts, lines := plines, postCount := 0, trace := evs }
          (defaultErrorMessage e)
        rw [h1]
        show (evs ++ t1).count Event.chatRound ≤ 20
        rw [List.count_append, hevs,
          count_eq_zero_of_forall Event.chatRound hp1 (by simp [isInnerEvent])]
        omega
    | ok p =>
        rcases p with ⟨k, cleanup⟩
        dsimp only
        obtain ⟨t, h2, _, hcount⟩ := runLoopAux_trace env cid tts token 20
          { messages := msgs, timestamp := ts, lines := plines, postCount := 0, trace := evs }
        rw [List.count_append, h2]
        show (evs ++ t).count Event.chatRound + _ ≤ 20
        rw [List.count_append, hevs, cleanupEvents_no_chatRound]
        omega
  · intro htok hnew hinit hModel
    have hgw : getMcpClient env token = (.ok (.ephemeral, .closeClient),
        [.clientCreated .ephemeral]) := by
      unfold getMcpClient
      rw [beq_eq_false_iff_ne.mpr htok]
      simp only [Bool.false_eq_true, if_false]
      rw [hnew, hinit]
    unfold runConversationLoop
    rw [hgw]
    dsimp only
    obtain ⟨c, s2, hrun, pts, hmem⟩ := runLoopAux_maxRounds env cid tts token htok hModel 19
      ({ messages := msgs, timestamp := ts, lines := plines, postCount := 0,
         trace := [.clientCreated .ephemeral] })
    rw [hrun]
    exact ⟨c, rfl, ⟨pts, by simp [hmem]⟩, maxRoundsAnswer_ne_empty c⟩

/-- The response of a model that thinks forever without completing. -/
def loopForeverResponse : ChatResponse :=
  { content := "thinking", toolCalls := [], isComplete := false }

/-- Environment whose model never completes and never requests tools. -/
def envLoopForever : Env :=
  { envBase with chatWithTools := fun _ => .ok loopForeverResponse }

/-- Witness for C3: with a model that never completes, the turn returns the
partial answer built from the last content, the warning line is posted, and
the budget bound holds. -/
theorem conversationLoop_roundBudget_witness :
    ((runConversationLoop envLoopForever "C" "T" "t0" [] [] "tok").2.trace.count
        .chatRound ≤ 20) ∧
    ∃ c, (runConversationLoop envLoopForever "C" "T" "t0" [] [] "tok").1 =
        .ok (maxRoundsAnswer c) ∧ maxRoundsAnswer c ≠ "" := by
  have h := conversationLoop_roundBudget envLoopForever "C" "T" "t0" [] [] "tok"
  obtain ⟨c, h1, _, h3⟩ := h.2 (by decide) rfl rfl
    (fun ms => ⟨loopForeverResponse, rfl, rfl⟩)
  exact ⟨h.1, c, h1, h3⟩

/-- C7: the release discipline of `runConversationLoop`.  With a non-empty
personal credential whose ephemeral client resolves, the closing cleanup runs
exactly once on every exit path of the turn — the theorem quantifies over all
environments, so all exit paths after resolution (completion, model error,
tool error, permission denial, round exhaustion) are covered at once.  With an
empty credential the returned cleanup is the no-op and the shared default
client is never closed. -/
theorem conversationLoop_releaseDiscipline (env : Env) (cid tts ts : String)
    (msgs : List ChatMessage) (plines : List String) (token : String) :
    (token ≠ "" → env.newEphemeralClient = .ok () → env.initEphemeral = .ok () →
      (runConversationLoop env cid tts ts msgs plines token).2.trace.count
        .clientClosed = 1) ∧
    (token = "" →
      (runConversationLoop env cid tts ts msgs plines token).2.trace.count
        .clientClosed = 0) := by
  constructor
  · intro htok hnew hinit
    have hgw : getMcpClient env token =
        (.ok (.ephemeral, .closeClient), [.clientCreated .ephemeral]) := by
      unfold getMcpClient
      rw [beq_eq_false_iff_ne.mpr htok]
      simp only [Bool.false_eq_true, if_false]
      rw [hnew, hinit]
    unfold runConversationLoop
    rw [hgw]
    dsimp only
    obtain ⟨t, h2, hturn, _⟩ := runLoopAux_trace env cid tts token 20
      ({ messages := msgs, timestamp := ts, lines := plines, postCount := 0,
         trace := [.clientCreated .ephemeral] })
    rw [List.count_append, h2, List.count_append,
      count_eq_zero_of_forall Event.clientClosed hturn (by simp [isTurnEvent])]
    rfl
  · intro htok
    subst htok
    have hgw : getMcpClient env "" = (.ok (.default, .noop), []) := by
      unfold getMcpClient
      rfl
    unfold runConversationLoop
    rw [hgw]
    dsimp only
    obtain ⟨t, h2, hturn, _⟩ := runLoopAux_trace env cid tts "" 20
      ({ messages := msgs, timestamp := ts, lines := plines, postCount := 0,
         trace := [] })
    rw [List.count_append, h2, List.count_append,
      count_eq_zero_of_forall Event.clientClosed hturn (by simp [isTurnEvent])]
    rfl

/-- Witness for C7: a completed one-round turn closes the ephemeral client
exactly once under a personal credential, and closes nothing under the empty
credential. -/
theorem conversationLoop_releaseDiscipline_witness :
    ((runConversationLoop envBase "C" "T" "t0" [] [] "tok").2.trace.count
        .clientClosed = 1) ∧
    ((runConversationLoop envBase "C" "T" "t0" [] [] "").2.trace.count
        .clientClosed = 0) := by
  refine ⟨?_, ?_⟩
  · exact (conversationLoop_releaseDiscipline envBase "C" "T" "t0" [] [] "tok").1
      (by decide) rfl rfl
  · exact (conversationLoop_releaseDiscipline envBase "C" "T" "t0" [] [] "").2 rfl

theorem contentStep_cases (s : LoopState) (r : ChatResponse) :
    contentStep s r = s ∨
    contentStep s r =
      updateMsg { s with lines := s.lines ++ [r.content] } s.timestamp
        (String.intercalate "\n\n" (s.lines ++ [r.content])) := by
  unfold contentStep
  split
  · right
    rfl
  · left
    rfl

theorem runLoopAux_denied (env : Env) (cid tts : String) (fuel : Nat) (s : LoopState)
    (response : ChatResponse) (tc : ToolCall) (rest : List ToolCall)
    (hchat : env.chatWithTools (thinkState s).messages = .ok response)
    (hic : response.isComplete = false)
    (hcalls : response.toolCalls = tc :: rest)
    (hw : writableJiraTools.contains tc.name = true) :
    runLoopAux env cid tts "" (fuel + 1) s =
      (.error permissionDeniedError,
        { contentStep (thinkState s) response with
            postCount := (contentStep (thinkState s) response).postCount + 1,
            trace := (contentStep (thinkState s) response).trace ++
              [.posted (permissionDeniedNotice tc.name)
                (env.postTs (contentStep (thinkState s) response).postCount)] }) := by
  unfold runLoopAux
  dsimp only
  rw [hchat]
  simp only [hic, Bool.false_eq_true, if_false]
  rw [hcalls, processToolCalls_denied env cid tts tc rest _ hw]

/-- C4 (amended): with an empty stored credential, a turn whose first model
round requests a mutating tool call first aborts immediately with the
permission-denied notice; no tool invocation reaches the backend and no
per-user ephemeral client is ever created.  Under the lazy-client variant the
shared default client may however be initialised during the turn — and only
when the process had not demanded it before (`uninit`). -/
theorem deniedTurn_noEphemeralClient (env : Env) (st : McpState)
    (cid tts ts : String) (msgs : List ChatMessage) (plines : List String)
    (response : ChatResponse) (tc : ToolCall) (rest : List ToolCall)
    (hok : env.newDefaultClient = .ok ()) (hinit : env.initDefault = .ok ())
    (hnf : ∀ e, st ≠ .failed e)
    (hchat : env.chatWithTools (trimMessages msgs) = .ok response)
    (hic : response.isComplete = false)
    (hcalls : response.toolCalls = tc :: rest)
    (hw : writableJiraTools.contains tc.name = true) :
    (runConversationLoopLazy env st cid tts ts msgs plines "").1 =
      .error permissionDeniedError ∧
    (∃ pts, .posted (permissionDeniedNotice tc.name) pts ∈
      (runConversationLoopLazy env st cid tts ts msgs plines "").2.1.trace) ∧
    (∀ n, .callTool n ∉
      (runConversationLoopLazy env st cid tts ts msgs plines "").2.1.trace) ∧
    (.clientCreated .ephemeral ∉
      (runConversationLoopLazy env st cid tts ts msgs plines "").2.1.trace) ∧
    (.clientCreated .default ∈
        (runConversationLoopLazy env st cid tts ts msgs plines "").2.1.trace →
      st = .uninit) := by
  have h20 : (20 : Nat) = 19 + 1 := rfl
  cases st with
  | failed e => exact absurd rfl (hnf e)
  | uninit =>
      have hgw : getMcpClientLazy env .uninit "" =
          (.ready, .ok (.default, .noop), [.onceBodyRun, .clientCreated .default]) := by
        unfold getMcpClientLazy ensureDefaultMcpClient
        rw [hok, hinit]
        rfl
      unfold runConversationLoopLazy
      rw [hgw]
      dsimp only
      rw [h20]
      rw [runLoopAux_denied env cid tts 19
        ({ messages := msgs, timestamp := ts, lines := plines, postCount := 0,
           trace := [.onceBodyRun, .clientCreated .default] })
        response tc rest hchat hic hcalls hw]
      rcases contentStep_cases
          (thinkState
            ({ messages := msgs, timestamp := ts, lines := plines, postCount := 0,
               trace := [.onceBodyRun, .clientCreated .default] }))
          response with hcs | hcs
      all_goals rw [hcs]
      all_goals refine ⟨rfl, ⟨env.postTs 0, ?_⟩, ?_, ?_, fun _ => rfl⟩
      all_goals simp [thinkState, updateMsg, cleanupEvents]
  | ready =>
      have hgw : getMcpClientLazy env .ready "" = (.ready, .ok (.default, .noop), []) := by
        unfold getMcpClientLazy ensureDefaultMcpClient
        rfl
      unfold runConversationLoopLazy
      rw [hgw]
      dsimp only
      rw [h20]
      rw [runLoopAux_denied env cid tts 19
        ({ messages := msgs, timestamp := ts, lines := plines, postCount := 0, trace := [] })
        response tc rest hchat hic hcalls hw]
      rcases contentStep_cases
          (thinkState
            ({ messages := msgs, timestamp := ts, lines := plines, postCount := 0,
               trace := [] }))
          response with hcs | hcs
      all_goals rw [hcs]
      all_goals refine ⟨rfl, ⟨env.postTs 0, ?_⟩, ?_, ?_, ?_⟩
      all_goals simp [thinkState, updateMsg, cleanupEvents]

/-- C4 counterexample: under the lazy-client variant, the very turn that the
permission gate aborts (empty credential, model requests `jira_create_issue`
in round 1) does create a tool client in a fresh process — the shared default
client is initialised on first demand before the round loop even starts — so
the claim that no tool client is created during such a turn fails. -/
theorem lazyClient_created_during_denied_turn :
    (runConversationLoopLazy envDeny .uninit "C" "T" "t0" [] [] "").1 =
      .error permissionDeniedError ∧
    Event.clientCreated .default ∈
      (runConversationLoopLazy envDeny .uninit "C" "T" "t0" [] [] "").2.1.trace := by
  constructor
  · rfl
  · decide

/-- Witness for the amended C4, with the default client already initialised:
the denied turn errors out and no ephemeral client is created. -/
theorem deniedTurn_noEphemeralClient_witness :
    (runConversationLoopLazy envDeny .ready "C" "T" "t0" [] [] "").1 =
      .error permissionDeniedError ∧
    Event.clientCreated .ephemeral ∉
      (runConversationLoopLazy envDeny .ready "C" "T" "t0" [] [] "").2.1.trace := by
  have h := deniedTurn_noEphemeralClient envDeny .ready "C" "T" "t0" [] []
    denyResponse createIssueCall [] rfl rfl (fun e => by simp) rfl rfl rfl (by decide)
  exact ⟨h.1, h.2.2.2.1⟩

end JiraHelper
